import Mathlib

/-
  Verification development for the EmailToTelegram repository
  (src/config_manager.py, src/email_monitor.py).

  Modelling conventions:
  - A Python `str` is modelled as its sequence of Unicode code points,
    `PyStr := List Nat`; a Python `bytes` is a `List Nat` of byte values.
  - External library calls (cryptography.fernet, base64, str.encode /
    bytes.decode) are modelled as the fields of a `CipherSuite` record;
    their documented round-trip contracts appear as explicit hypotheses
    of the theorems that need them.
  - Python exceptions are modelled with `Option`: a failing library call
    returns `none`, and a `try/except` block is a `match` on that option.
  - Network effects (IMAP probe/connect/search/fetch) are recorded in an
    explicit `NetOp` trace; nondeterministic outcomes of the environment
    (server answers, parse failures) are inputs to the functions.
-/

abbrev PyStr := List Nat

/-- External cryptography and codec primitives used by ConfigManager:
`Fernet.encrypt`, `Fernet.decrypt`, `base64.urlsafe_b64encode`,
`base64.urlsafe_b64decode`, `str.encode`, `bytes.decode`.  Decoding and
decryption can fail (raise), hence `Option`. -/
structure CipherSuite where
  fernetEncrypt : List Nat → List Nat
  fernetDecrypt : List Nat → Option (List Nat)
  b64encode : List Nat → List Nat
  b64decode : List Nat → Option (List Nat)
  strEncode : PyStr → List Nat
  strDecode : List Nat → Option PyStr

/-- ConfigManager._encrypt_password: base64-encode the Fernet token of the
encoded password and decode the result back to a str; on any exception the
except branch returns the plaintext password unchanged. -/
def encrypt_password (S : CipherSuite) (password : PyStr) : PyStr :=
  match S.strDecode (S.b64encode (S.fernetEncrypt (S.strEncode password))) with
  | some token => token
  | none => password

/-- The body of the try block of ConfigManager._decrypt_password:
urlsafe_b64decode the encoded input, Fernet-decrypt, decode to str; `none`
models an exception raised at any of the three steps. -/
def decrypt_chain (S : CipherSuite) (encrypted_password : PyStr) : Option PyStr :=
  (S.b64decode (S.strEncode encrypted_password)).bind fun encrypted_bytes =>
    (S.fernetDecrypt encrypted_bytes).bind fun decrypted_bytes =>
      S.strDecode decrypted_bytes

/-- ConfigManager._decrypt_password: the try body, with the except branch
returning the input unchanged. -/
def decrypt_password (S : CipherSuite) (encrypted_password : PyStr) : PyStr :=
  match decrypt_chain S encrypted_password with
  | some plain => plain
  | none => encrypted_password

/-- A concrete cipher suite used to instantiate the library-contract
hypotheses at witnesses: encoding is the identity on code points, base64
tags with a leading 0, Fernet tags with a leading 1. -/
def demoSuite : CipherSuite where
  fernetEncrypt := fun b => 1 :: b
  fernetDecrypt := fun b => match b with | 1 :: r => some r | _ => none
  b64encode := fun b => 0 :: b
  b64decode := fun b => match b with | 0 :: r => some r | _ => none
  strEncode := fun s => s
  strDecode := fun b => some b

theorem demoSuite_b64_roundtrip (b : List Nat) :
    demoSuite.b64decode (demoSuite.b64encode b) = some b := rfl

theorem demoSuite_fernet_roundtrip (b : List Nat) :
    demoSuite.fernetDecrypt (demoSuite.fernetEncrypt b) = some b := rfl

theorem demoSuite_str_roundtrip (s : PyStr) :
    demoSuite.strDecode (demoSuite.strEncode s) = some s := rfl

theorem demoSuite_strDecode_inv (bs s : List Nat) :
    demoSuite.strDecode bs = some s → demoSuite.strEncode s = bs := by
  intro h
  simpa [demoSuite] using h.symm

theorem demoSuite_b64_ascii (b : List Nat) :
    (demoSuite.strDecode (demoSuite.b64encode b)).isSome := rfl

/-- C1: under the library contracts of base64, Fernet and UTF-8 codecs
(round trips, plus the fact that base64 output always decodes as text),
decrypting the encryption of any password string returns that string:
decrypt_password (encrypt_password s) = s. -/
theorem decrypt_encrypt_roundtrip (S : CipherSuite)
    (hb : ∀ b, S.b64decode (S.b64encode b) = some b)
    (hf : ∀ b, S.fernetDecrypt (S.fernetEncrypt b) = some b)
    (hs : ∀ s, S.strDecode (S.strEncode s) = some s)
    (hsl : ∀ bs s, S.strDecode bs = some s → S.strEncode s = bs)
    (hascii : ∀ b, (S.strDecode (S.b64encode b)).isSome)
    (s : PyStr) :
    decrypt_password S (encrypt_password S s) = s := by
  have hsome := hascii (S.fernetEncrypt (S.strEncode s))
  rw [Option.isSome_iff_exists] at hsome
  obtain ⟨t, ht⟩ := hsome
  have henc : encrypt_password S s = t := by
    unfold encrypt_password
    rw [ht]
  have hchain : decrypt_chain S t = some s := by
    unfold decrypt_chain
    rw [hsl _ _ ht, hb]
    simp [hf, hs]
  rw [henc]
  unfold decrypt_password
  rw [hchain]

/-- Witness for C1 at the concrete demoSuite and password [104, 105]. -/
theorem decrypt_encrypt_roundtrip_witness :
    decrypt_password demoSuite (encrypt_password demoSuite [104, 105]) = [104, 105] :=
  decrypt_encrypt_roundtrip demoSuite demoSuite_b64_roundtrip
    demoSuite_fernet_roundtrip demoSuite_str_roundtrip demoSuite_strDecode_inv
    demoSuite_b64_ascii [104, 105]

/-- C7: whenever the decryption chain fails (malformed token, wrong key or
decode error, i.e. the try body raises), _decrypt_password catches the
error and returns the input value unchanged. -/
theorem decrypt_failure_returns_input (S : CipherSuite) (tok : PyStr)
    (h : decrypt_chain S tok = none) :
    decrypt_password S tok = tok := by
  unfold decrypt_password
  rw [h]

/-- Witness for C7: [104] is not a valid token for demoSuite (it does not
start with the base64 tag 0), so decryption fails and the input comes
back unchanged. -/
theorem decrypt_failure_returns_input_witness :
    decrypt_chain demoSuite [104] = none ∧ decrypt_password demoSuite [104] = [104] :=
  ⟨rfl, decrypt_failure_returns_input demoSuite [104] rfl⟩

/-
  Data model: EmailConfig (email_monitor.py, dataclass EmailConfig) and the
  ConfigManager registry {user_id: {config_name: EmailConfig}}.
  Python dicts are modelled as association lists with first-match lookup;
  dict assignment, deletion and key update are the functions below.
-/

/-- email_monitor.EmailConfig.  last_check_time is an abstract timestamp. -/
structure EmailConfig where
  host : PyStr
  port : Nat
  email : PyStr
  password : PyStr
  folder : PyStr
  check_interval : Nat
  target_chat_id : Int
  user_id : Int
  config_name : PyStr
  last_check_time : Option Nat
  filter_sender : Option PyStr
  filter_subject : Option PyStr
  filter_has_attachments : Option Bool
deriving DecidableEq

/-- Dict lookup: d.get(k) / d[k] when present. -/
def lookupA {α β : Type} [DecidableEq α] : List (α × β) → α → Option β
  | [], _ => none
  | (k, v) :: t, a => if k = a then some v else lookupA t a

/-- Dict deletion: del d[k]. -/
def eraseA {α β : Type} [DecidableEq α] : List (α × β) → α → List (α × β)
  | [], _ => []
  | (k, v) :: t, a => if k = a then eraseA t a else (k, v) :: eraseA t a

/-- Dict assignment d[k] = v: update in place if present, else append. -/
def setA {α β : Type} [DecidableEq α] : List (α × β) → α → β → List (α × β)
  | [], a, b => [(a, b)]
  | (k, v) :: t, a, b => if k = a then (a, b) :: t else (k, v) :: setA t a b

theorem lookupA_eraseA {α β : Type} [DecidableEq α] (l : List (α × β)) (a : α) :
    lookupA (eraseA l a) a = none := by
  induction l with
  | nil => rfl
  | cons p t ih =>
    obtain ⟨k, v⟩ := p
    by_cases hk : k = a
    · simpa [eraseA, hk] using ih
    · simp [eraseA, hk, lookupA, ih]

theorem lookupA_setA_self {α β : Type} [DecidableEq α]
    (l : List (α × β)) (a : α) (b : β) :
    lookupA (setA l a b) a = some b := by
  induction l with
  | nil => simp [setA, lookupA]
  | cons p t ih =>
    obtain ⟨k, v⟩ := p
    by_cases hk : k = a
    · simp [setA, hk, lookupA]
    · simp [setA, hk, lookupA, ih]

theorem lookupA_map_value {α β γ : Type} [DecidableEq α]
    (f : β → γ) (l : List (α × β)) (a : α) :
    lookupA (l.map (fun p => (p.1, f p.2))) a = (lookupA l a).map f := by
  induction l with
  | nil => rfl
  | cons p t ih =>
    obtain ⟨k, v⟩ := p
    by_cases hk : k = a
    · simp [lookupA, hk]
    · simp [lookupA, hk, ih]

/-- The ConfigManager in-memory registry self.user_configs. -/
abbrev Registry := List (Nat × List (PyStr × EmailConfig))

/-- Nested lookup self.user_configs[user_id][config_name]. -/
def lookupReg (reg : Registry) (user_id : Nat) (config_name : PyStr) :
    Option EmailConfig :=
  match lookupA reg user_id with
  | none => none
  | some m => lookupA m config_name

/-- One entry of the document built by ConfigManager._save_to_file: the
config dict with the password field encrypted in place when it is truthy
(a non-empty string); an empty password is falsy and left as is. -/
def encryptConfigForSave (S : CipherSuite) (c : EmailConfig) : EmailConfig :=
  if c.password ≠ [] then { c with password := encrypt_password S c.password }
  else c

/-- The full document ConfigManager._save_to_file serializes to disk:
the registry with every truthy password encrypted in place. -/
def saveToFileDoc (S : CipherSuite) (reg : Registry) : Registry :=
  reg.map (fun p => (p.1, p.2.map (fun q => (q.1, encryptConfigForSave S q.2))))

/-- Python truthiness of an optional string: None and the empty string are
falsy. -/
def pyTruthyStr : Option PyStr → Bool
  | none => false
  | some s => s ≠ []

/-- ConfigManager.delete_user_config: returns (success, new registry).
Writing the file is abstracted as succeeding, so the boolean reflects the
registry-level outcome exactly as in the source.  The source's branch
`if config_name:` is a Python truthiness test: both None and the
present-but-empty name take the delete-ALL-configs branch. -/
def delete_user_config (reg : Registry) (user_id : Nat)
    (config_name : Option PyStr) : Bool × Registry :=
  match lookupA reg user_id with
  | none => (false, reg)
  | some m =>
    if pyTruthyStr config_name then
      match lookupA m (config_name.getD []) with
      | none => (false, reg)
      | some _ =>
        let m' := eraseA m (config_name.getD [])
        let reg' := if m' = [] then eraseA reg user_id else setA reg user_id m'
        (true, reg')
    else (true, eraseA reg user_id)

/-- ConfigManager.list_user_config_names: keys of the owner's inner dict,
empty when the owner has no entry. -/
def list_user_config_names (reg : Registry) (user_id : Nat) : List PyStr :=
  match lookupA reg user_id with
  | none => []
  | some m => m.map (fun p => p.1)

/-
  EmailMonitor: message info, filters (C9).
-/

/-- The record _extract_email_info builds from a parsed message (the
fields the filter logic reads, plus the notification payload fields). -/
structure EmailInfo where
  subject : PyStr
  sender : PyStr
  date : PyStr
  body : PyStr
  has_attachments : Bool
  attachments_count : Nat
deriving DecidableEq

/-- Python str.lower() on one code point (ASCII case mapping, which is all
the filter comparison relies on; a common lower function cancels out in
the equivalence proof). -/
def pyLowerChar (n : Nat) : Nat :=
  if 65 ≤ n ∧ n ≤ 90 then n + 32 else n

/-- Python str.lower(). -/
def pyLower (s : PyStr) : PyStr := s.map pyLowerChar

/-- needle is a prefix of hay, as a boolean. -/
def listStarts : PyStr → PyStr → Bool
  | _, [] => true
  | [], _ :: _ => false
  | a :: as, b :: bs => a == b && listStarts as bs

/-- Python substring test: `needle in hay`. -/
def pyContains : PyStr → PyStr → Bool
  | [], needle => listStarts [] needle
  | h :: t, needle => listStarts (h :: t) needle || pyContains t needle

theorem pyContains_nil_needle (hay : PyStr) : pyContains hay [] = true := by
  cases hay <;> simp [pyContains, listStarts]

/-- EmailMonitor._should_process_email: three sequential checks, each an
early `return False`; the guards `if config.filter_sender:` use Python
truthiness, so a present-but-empty filter string is skipped. -/
def should_process_email (email_info : EmailInfo) (config : EmailConfig) : Bool :=
  let senderPass :=
    if pyTruthyStr config.filter_sender then
      pyContains (pyLower email_info.sender)
        (pyLower (config.filter_sender.getD []))
    else true
  let subjectPass :=
    if pyTruthyStr config.filter_subject then
      pyContains (pyLower email_info.subject)
        (pyLower (config.filter_subject.getD []))
    else true
  let attachPass :=
    match config.filter_has_attachments with
    | none => true
    | some b => email_info.has_attachments == b
  senderPass && subjectPass && attachPass

/-- C9: _should_process_email returns true exactly when every set filter
passes: sender filter unset or a case-insensitive substring of the sender,
subject filter unset or a case-insensitive substring of the subject, and
attachment filter unset or exactly equal to the message's flag. -/
theorem should_process_email_iff (email_info : EmailInfo) (config : EmailConfig) :
    should_process_email email_info config = true ↔
      ((∀ f, config.filter_sender = some f →
          pyContains (pyLower email_info.sender) (pyLower f) = true)
        ∧ (∀ f, config.filter_subject = some f →
            pyContains (pyLower email_info.subject) (pyLower f) = true)
        ∧ (∀ b, config.filter_has_attachments = some b →
            email_info.has_attachments = b)) := by
  unfold should_process_email
  simp only [Bool.and_eq_true]
  constructor
  · rintro ⟨⟨hsender, hsubject⟩, hattach⟩
    refine ⟨?_, ?_, ?_⟩
    · intro f hf
      rcases eq_or_ne f [] with h0 | h0
      · subst h0
        simp [pyLower, pyContains_nil_needle]
      · rw [hf] at hsender
        simpa [pyTruthyStr, h0] using hsender
    · intro f hf
      rcases eq_or_ne f [] with h0 | h0
      · subst h0
        simp [pyLower, pyContains_nil_needle]
      · rw [hf] at hsubject
        simpa [pyTruthyStr, h0] using hsubject
    · intro b hb
      rw [hb] at hattach
      simpa using hattach
  · rintro ⟨hsender, hsubject, hattach⟩
    refine ⟨⟨?_, ?_⟩, ?_⟩
    · cases hcf : config.filter_sender with
      | none => simp [pyTruthyStr]
      | some f =>
        rcases eq_or_ne f [] with h0 | h0
        · simp [pyTruthyStr, h0]
        · simpa [pyTruthyStr, h0] using hsender f hcf
    · cases hcf : config.filter_subject with
      | none => simp [pyTruthyStr]
      | some f =>
        rcases eq_or_ne f [] with h0 | h0
        · simp [pyTruthyStr, h0]
        · simpa [pyTruthyStr, h0] using hsubject f hcf
    · cases hcf : config.filter_has_attachments with
      | none => simp
      | some b => simp [hattach b hcf]

/-
  EmailMonitor connection lifecycle (_connect) and per-account cycle
  (_check_emails_for_config).  Per-account transient state is
  processed_messages[email], imap_clients[email], error_counts[email];
  for the per-account theorems it is bundled as AccountState.
-/

/-- IMAP network operations attempted during a cycle, for stating that the
circuit breaker performs zero I/O. -/
inductive NetOp where
  | probe
  | connectAttempt
  | searchOp
  | fetchOp (m : PyStr)
deriving DecidableEq

/-- Environment outcomes for one _connect call: does noop on an existing
client succeed; do client construction and wait_hello_from_server succeed
(an exception otherwise); does the login call raise; is the login result
OK; does the select call raise; is the select result OK. -/
structure ConnEnv where
  probe_ok : Bool
  hello_ok : Bool
  login_raises : Bool
  login_ok : Bool
  select_raises : Bool
  select_ok : Bool
deriving DecidableEq

/-- Transient per-account monitor state: the dedup set
processed_messages[email] (as a duplicate-free list), whether
imap_clients[email] is non-None, and error_counts[email]. -/
structure AccountState where
  processed : List PyStr
  client : Bool
  errors : Nat
deriving DecidableEq

/-- self.max_errors. -/
def maxErrors : Nat := 5

/-- EmailMonitor._connect, returning (success, new state, attempted network
operations).  Mirrors the source: a live probe reuses the session and
returns immediately; a failed probe drops the handle and falls through to
a fresh connect; an exception at any await (hello, login, select) lands in
the except branch, which clears the handle and increments the error
counter; a non-OK login or select result returns False without touching
the counter or the handle; full success resets the counter to 0. -/
def connect (env : ConnEnv) (st : AccountState) : Bool × AccountState × List NetOp :=
  if st.client then
    if env.probe_ok then (true, st, [NetOp.probe])
    else connectFresh env { st with client := false } [NetOp.probe]
  else connectFresh env st []
where
  connectFresh (env : ConnEnv) (st : AccountState) (ops : List NetOp) :
      Bool × AccountState × List NetOp :=
    let ops := ops ++ [NetOp.connectAttempt]
    if !env.hello_ok then
      (false, { st with client := false, errors := st.errors + 1 }, ops)
    else
      let st1 := { st with client := true }
      if env.login_raises then
        (false, { st1 with client := false, errors := st1.errors + 1 }, ops)
      else if !env.login_ok then (false, st1, ops)
      else if env.select_raises then
        (false, { st1 with client := false, errors := st1.errors + 1 }, ops)
      else if !env.select_ok then (false, st1, ops)
      else (true, { st1 with errors := 0 }, ops)

theorem connect_processed_unchanged (env : ConnEnv) (st : AccountState) :
    (connect env st).2.1.processed = st.processed := by
  obtain ⟨p, c, e⟩ := st
  obtain ⟨po, ho, lr, lo, sr, so⟩ := env
  cases c <;> cases po <;> cases ho <;> cases lr <;> cases lo <;>
    cases sr <;> cases so <;>
  simp [connect, connect.connectFresh]

/-- Environment outcomes for processing one message identifier: does the
fetch await raise, is the fetch result OK, does parsing the raw message
raise, and the parsed info on success. -/
structure FetchEnv where
  fetch_raises : Bool
  fetch_ok : Bool
  parse_raises : Bool
  info : EmailInfo
deriving DecidableEq

/-- set.add on the dedup set, modelled on a duplicate-free list. -/
def insertMsg (m : PyStr) (l : List PyStr) : List PyStr :=
  if m ∈ l then l else m :: l

/-- EmailMonitor._process_message on the dedup set of one account,
returning (new dedup set, whether bot.send_message was invoked, network
operations).  Mirrors the source: an identifier already in the set
returns before any fetch; a raising fetch, a non-OK fetch result or a
raising parse are swallowed by the try/except and return WITHOUT adding
the identifier; a filtered-out message is added without notification; a
passing message is notified and added. -/
def processMessageCore (config : EmailConfig) (message_id : PyStr)
    (env : FetchEnv) (processed : List PyStr) :
    List PyStr × Bool × List NetOp :=
  if message_id ∈ processed then (processed, false, [])
  else if env.fetch_raises then (processed, false, [NetOp.fetchOp message_id])
  else if !env.fetch_ok then (processed, false, [NetOp.fetchOp message_id])
  else if env.parse_raises then (processed, false, [NetOp.fetchOp message_id])
  else if !(should_process_email env.info config) then
    (insertMsg message_id processed, false, [NetOp.fetchOp message_id])
  else
    (insertMsg message_id processed, true, [NetOp.fetchOp message_id])

/-- _process_message acting on the bundled per-account state. -/
def processMessage (config : EmailConfig) (message_id : PyStr)
    (env : FetchEnv) (st : AccountState) :
    AccountState × Bool × List NetOp :=
  let r := processMessageCore config message_id env st.processed
  ({ st with processed := r.1 }, r.2.1, r.2.2)

/-- The message loop of _check_emails_for_config: process each returned
identifier in order, collecting the identifiers for which a notification
was dispatched and the attempted network operations. -/
def runLoop (config : EmailConfig) :
    List (PyStr × FetchEnv) → AccountState →
      AccountState × List PyStr × List NetOp
  | [], st => (st, [], [])
  | (m, env) :: rest, st =>
    let r := processMessage config m env st
    let rr := runLoop config rest r.1
    (rr.1, (if r.2.1 then [m] else []) ++ rr.2.1, r.2.2 ++ rr.2.2)

/-- Environment outcomes for one whole poll cycle of one account. -/
structure CycleEnv where
  conn : ConnEnv
  search_raises : Bool
  search_ok : Bool
  msgs : List (PyStr × FetchEnv)

/-- EmailMonitor._check_emails_for_config: skip when the error counter has
reached max_errors (before any I/O); otherwise connect (aborting the
cycle on failure), search (a raising search lands in the except branch,
incrementing the counter and dropping the handle; a non-OK search result
just returns), then run the message loop. -/
def checkEmailsForConfig (config : EmailConfig) (env : CycleEnv)
    (st : AccountState) : AccountState × List PyStr × List NetOp :=
  if st.errors ≥ maxErrors then (st, [], [])
  else
    let c := connect env.conn st
    if !c.1 then (c.2.1, [], c.2.2)
    else if env.search_raises then
      ({ c.2.1 with errors := c.2.1.errors + 1, client := false }, [],
        c.2.2 ++ [NetOp.searchOp])
    else if !env.search_ok then (c.2.1, [], c.2.2 ++ [NetOp.searchOp])
    else
      let r := runLoop config env.msgs c.2.1
      (r.1, r.2.1, c.2.2 ++ [NetOp.searchOp] ++ r.2.2)

/-- A sequence of poll cycles for one account, collecting every message
identifier for which the notification capability was invoked. -/
def runCycles (config : EmailConfig) :
    List CycleEnv → AccountState → AccountState × List PyStr
  | [], st => (st, [])
  | env :: rest, st =>
    let r := checkEmailsForConfig config env st
    let rr := runCycles config rest r.1
    (rr.1, r.2.1 ++ rr.2)

/-- The per-account state EmailMonitor.__init__ creates: empty dedup set,
no client, zero errors. -/
def initialAccountState : AccountState := ⟨[], false, 0⟩

/-- C4: when the consecutive-failure counter has reached max_errors = 5,
a poll cycle for that account is a no-op: no network operation is
attempted, nothing is notified, and the state is unchanged. -/
theorem circuit_open_skips_cycle (config : EmailConfig) (env : CycleEnv)
    (st : AccountState) (h : maxErrors ≤ st.errors) :
    checkEmailsForConfig config env st = (st, [], []) := by
  unfold checkEmailsForConfig
  simp [h]

/-- Witness for C4 at a concrete config, environment and state with 5
accumulated errors. -/
theorem circuit_open_skips_cycle_witness :
    checkEmailsForConfig
        ⟨[104], 993, [97], [112], [105], 300, 1, 1, [97], none, none, none, none⟩
        ⟨⟨true, true, false, true, false, true⟩, false, true,
          [([49], ⟨false, true, false, ⟨[], [], [], [], false, 0⟩⟩)]⟩
        ⟨[], false, 5⟩ =
      (⟨[], false, 5⟩, [], []) :=
  circuit_open_skips_cycle _ _ _ (by decide)

/-
  Duplicate-suppression facts (C2, C6).
-/

theorem mem_insertMsg (x m : PyStr) (l : List PyStr) :
    x ∈ insertMsg m l ↔ x = m ∨ x ∈ l := by
  unfold insertMsg
  split
  · rename_i h
    constructor
    · intro hx
      exact Or.inr hx
    · rintro (rfl | hx)
      · exact h
      · exact hx
  · simp [List.mem_cons]

theorem processMessage_skip (config : EmailConfig) (m : PyStr) (env : FetchEnv)
    (st : AccountState) (h : m ∈ st.processed) :
    processMessage config m env st = (st, false, []) := by
  unfold processMessage processMessageCore
  simp [h]

theorem processMessage_processed_subset (config : EmailConfig) (m x : PyStr)
    (env : FetchEnv) (st : AccountState) (h : x ∈ st.processed) :
    x ∈ (processMessage config m env st).1.processed := by
  unfold processMessage processMessageCore
  split_ifs <;> simp [mem_insertMsg, h]

theorem processMessage_processed_super (config : EmailConfig) (m x : PyStr)
    (env : FetchEnv) (st : AccountState)
    (h : x ∈ (processMessage config m env st).1.processed) :
    x ∈ st.processed ∨ x = m := by
  unfold processMessage processMessageCore at h
  split_ifs at h <;> simp [mem_insertMsg] at h <;> tauto

theorem processMessage_notified (config : EmailConfig) (m : PyStr)
    (env : FetchEnv) (st : AccountState)
    (h : (processMessage config m env st).2.1 = true) :
    m ∉ st.processed ∧ m ∈ (processMessage config m env st).1.processed := by
  unfold processMessage processMessageCore at h ⊢
  split_ifs at h ⊢
  all_goals simp_all [mem_insertMsg]


/-- Invariant of the message loop: the number of notifications dispatched
for identifier m, plus one if m already sits in the dedup set, is at most
one; and once m has been notified (or was already in the set) it is in
the final dedup set. -/
theorem runLoop_dedup (config : EmailConfig) (m : PyStr) :
    ∀ (steps : List (PyStr × FetchEnv)) (st : AccountState),
      List.count m (runLoop config steps st).2.1
          + (if m ∈ st.processed then 1 else 0) ≤ 1
        ∧ ((1 ≤ List.count m (runLoop config steps st).2.1 ∨ m ∈ st.processed) →
            m ∈ (runLoop config steps st).1.processed) := by
  intro steps
  induction steps with
  | nil =>
    intro st
    refine ⟨?_, ?_⟩
    · simp only [runLoop, List.count_nil]
      split <;> omega
    · intro h
      simp only [runLoop, List.count_nil] at h ⊢
      rcases h with h | h
      · omega
      · exact h
  | cons p rest ih =>
    obtain ⟨m', env⟩ := p
    intro st
    obtain ⟨ih1, ih2⟩ := ih (processMessage config m' env st).1
    have hB := processMessage_processed_subset config m' m env st
    have hA := processMessage_notified config m' env st
    have hS := processMessage_processed_super config m' m env st
    simp only [runLoop, List.count_append]
    by_cases hr1 : m ∈ (processMessage config m' env st).1.processed
    · have hrr : List.count m (runLoop config rest (processMessage config m' env st).1).2.1 = 0 := by
        rw [if_pos hr1] at ih1
        omega
      have hfin : m ∈ (runLoop config rest (processMessage config m' env st).1).1.processed :=
        ih2 (Or.inr hr1)
      refine ⟨?_, fun _ => hfin⟩
      by_cases hst : m ∈ st.processed
      · have hhd : List.count m (if (processMessage config m' env st).2.1 then [m'] else []) = 0 := by
          split
          · rename_i hn
            refine List.count_eq_zero.mpr ?_
            intro hmem
            rcases List.mem_singleton.mp hmem with rfl
            exact (hA hn).1 hst
          · simp
        rw [if_pos hst]
        omega
      · have hhd : List.count m (if (processMessage config m' env st).2.1 then [m'] else []) ≤ 1 := by
          split
          · exact (List.count_le_length m _).trans (by simp)
          · simp
        rw [if_neg hst]
        omega
    · have hst : m ∉ st.processed := fun h => hr1 (hB h)
      have hhd : List.count m (if (processMessage config m' env st).2.1 then [m'] else []) = 0 := by
        split
        · rename_i hn
          refine List.count_eq_zero.mpr ?_
          intro hmem
          rcases List.mem_singleton.mp hmem with rfl
          exact hr1 (hA hn).2
        · simp
      rw [if_neg hr1] at ih1
      refine ⟨?_, ?_⟩
      · rw [if_neg hst]
        omega
      · intro h
        rcases h with h | h
        · exact ih2 (Or.inl (by omega))
        · exact absurd h hst


/-- A poll cycle either dispatches no notification and leaves the dedup
set untouched (circuit open, connect failure, search failure), or behaves
exactly as the message loop started from the current dedup set. -/
theorem checkEmails_cases (config : EmailConfig) (env : CycleEnv)
    (st : AccountState) :
    ((checkEmailsForConfig config env st).2.1 = []
        ∧ (checkEmailsForConfig config env st).1.processed = st.processed)
      ∨ ((checkEmailsForConfig config env st).2.1 =
            (runLoop config env.msgs (connect env.conn st).2.1).2.1
          ∧ (checkEmailsForConfig config env st).1.processed =
              (runLoop config env.msgs (connect env.conn st).2.1).1.processed) := by
  have hconn := connect_processed_unchanged env.conn st
  unfold checkEmailsForConfig
  by_cases h1 : st.errors ≥ maxErrors
  · left
    simp [h1]
  · by_cases h2 : (connect env.conn st).1 = true
    · by_cases h3 : env.search_raises = true
      · left
        simp [h1, h2, h3, hconn]
      · by_cases h4 : env.search_ok = true
        · right
          simp [h1, h2, h3, h4]
        · left
          simp [h1, h2, h3, h4, hconn]
    · left
      have h2' : (connect env.conn st).1 = false := by
        cases hb : (connect env.conn st).1
        · rfl
        · exact absurd hb h2
      simp [h1, h2', hconn]

/-- The dedup invariant lifted to one whole poll cycle. -/
theorem checkEmails_dedup (config : EmailConfig) (m : PyStr) (env : CycleEnv)
    (st : AccountState) :
    List.count m (checkEmailsForConfig config env st).2.1
        + (if m ∈ st.processed then 1 else 0) ≤ 1
      ∧ ((1 ≤ List.count m (checkEmailsForConfig config env st).2.1
            ∨ m ∈ st.processed) →
          m ∈ (checkEmailsForConfig config env st).1.processed) := by
  have hconn := connect_processed_unchanged env.conn st
  rcases checkEmails_cases config env st with ⟨hn, hp⟩ | ⟨hn, hp⟩
  · rw [hn, hp]
    refine ⟨by simp only [List.count_nil]; split <;> omega, ?_⟩
    intro h
    rcases h with h | h
    · simp at h
    · exact h
  · rw [hn, hp]
    have := runLoop_dedup config m env.msgs (connect env.conn st).2.1
    rw [hconn] at this
    exact this

/-- The dedup invariant over any sequence of poll cycles. -/
theorem runCycles_dedup (config : EmailConfig) (m : PyStr) :
    ∀ (envs : List CycleEnv) (st : AccountState),
      List.count m (runCycles config envs st).2
          + (if m ∈ st.processed then 1 else 0) ≤ 1
        ∧ ((1 ≤ List.count m (runCycles config envs st).2 ∨ m ∈ st.processed) →
            m ∈ (runCycles config envs st).1.processed) := by
  intro envs
  induction envs with
  | nil =>
    intro st
    refine ⟨?_, ?_⟩
    · simp only [runCycles, List.count_nil]
      split <;> omega
    · intro h
      simp only [runCycles, List.count_nil] at h ⊢
      rcases h with h | h
      · omega
      · exact h
  | cons env rest ih =>
    intro st
    obtain ⟨c1, c2⟩ := checkEmails_dedup config m env st
    obtain ⟨ih1, ih2⟩ := ih (checkEmailsForConfig config env st).1
    simp only [runCycles, List.count_append]
    by_cases hr1 : m ∈ (checkEmailsForConfig config env st).1.processed
    · have hrr :
          List.count m (runCycles config rest (checkEmailsForConfig config env st).1).2 = 0 := by
        rw [if_pos hr1] at ih1
        omega
      refine ⟨?_, fun _ => ih2 (Or.inr hr1)⟩
      omega
    · have hc0 : List.count m (checkEmailsForConfig config env st).2.1 = 0 := by
        by_contra h
        exact hr1 (c2 (Or.inl (by omega)))
      have hst : m ∉ st.processed := fun h => hr1 (c2 (Or.inr h))
      rw [if_neg hr1] at ih1
      rw [if_neg hst] at c1 ⊢
      refine ⟨by omega, ?_⟩
      intro h
      rcases h with h | h
      · exact ih2 (Or.inl (by omega))
      · exact absurd h hst

/-- C2: starting from the state __init__ creates (empty dedup set), the
notification capability is invoked at most once per message identifier
across any sequence of poll cycles; an identifier already in the dedup
set is skipped before any fetch and without notification; and every
identifier that reaches the filter stage (notified or filtered out) is
added to the dedup set. -/
theorem notify_at_most_once (config : EmailConfig) (m : PyStr) :
    (∀ envs : List CycleEnv,
        List.count m (runCycles config envs initialAccountState).2 ≤ 1)
      ∧ (∀ (env : FetchEnv) (st : AccountState), m ∈ st.processed →
          processMessage config m env st = (st, false, []))
      ∧ (∀ (env : FetchEnv) (st : AccountState),
          (processMessage config m env st).2.1 = true →
            m ∈ (processMessage config m env st).1.processed)
      ∧ (∀ (env : FetchEnv) (st : AccountState), m ∉ st.processed →
          env.fetch_raises = false → env.fetch_ok = true →
          env.parse_raises = false →
            m ∈ (processMessage config m env st).1.processed) := by
  refine ⟨?_, processMessage_skip config m, ?_, ?_⟩
  · intro envs
    have := (runCycles_dedup config m envs initialAccountState).1
    simpa [initialAccountState] using this
  · intro env st h
    exact (processMessage_notified config m env st h).2
  · intro env st hmem hfr hfo hpr
    unfold processMessage processMessageCore
    simp only [hfr, hfo, hpr]
    split_ifs <;> simp_all [mem_insertMsg]

/- Concrete inputs shared by witnesses and counterexamples. -/

/-- A concrete configuration (code points of short ASCII strings). -/
def cfg0 : EmailConfig :=
  ⟨[105], 993, [97, 64, 98], [112], [73], 300, 7, 42, [97, 64, 98],
    none, none, none, none⟩

/-- A concrete parsed message. -/
def info0 : EmailInfo := ⟨[115], [102], [100], [98], false, 0⟩

/-- A fetch environment in which everything succeeds. -/
def envOk : FetchEnv := ⟨false, true, false, info0⟩

/-- A fetch environment in which the fetch result is non-OK. -/
def envBadFetch : FetchEnv := ⟨false, false, false, info0⟩

/-- The message identifier "101". -/
def m0 : PyStr := [49, 48, 49]

/-- A cycle environment whose search returns exactly the id "101". -/
def cyc0 : CycleEnv :=
  ⟨⟨false, true, false, true, false, true⟩, false, true, [(m0, envOk)]⟩

/-- Witness for C2: two cycles both returning id "101" notify it at most
once; an id already in the set is skipped; a notified id is in the set. -/
theorem notify_at_most_once_witness :
    List.count m0 (runCycles cfg0 [cyc0, cyc0] initialAccountState).2 ≤ 1
      ∧ processMessage cfg0 m0 envOk ⟨[m0], false, 0⟩ = (⟨[m0], false, 0⟩, false, [])
      ∧ m0 ∈ (processMessage cfg0 m0 envOk initialAccountState).1.processed :=
  ⟨(notify_at_most_once cfg0 m0).1 [cyc0, cyc0],
    (notify_at_most_once cfg0 m0).2.1 envOk ⟨[m0], false, 0⟩ (by decide),
    (notify_at_most_once cfg0 m0).2.2.2 envOk initialAccountState
      (by decide) rfl rfl rfl⟩

/-- Counterexample to C6: when the fetch of id "101" returns a non-OK
result, _process_message returns without adding the id to the dedup set
(the set stays empty), contradicting the claim that the identifier is
still added on fetch/parse failure. -/
theorem fetch_failure_not_added_counterexample :
    (processMessage cfg0 m0 envBadFetch initialAccountState).1.processed = []
      ∧ (processMessage cfg0 m0 envBadFetch initialAccountState).2.1 = false
      ∧ m0 ∉ (processMessage cfg0 m0 envBadFetch initialAccountState).1.processed := by
  refine ⟨rfl, rfl, ?_⟩
  decide

/-- C6 amended: a fetch or parse failure is local to that message — the
state is unchanged, nothing is notified, and the rest of the loop runs
exactly as if the failing message were absent — but the identifier is NOT
added to the dedup set, so the fetch would be attempted again the next
time the identifier is returned (no never-retried guarantee). -/
theorem fetch_failure_local_not_added (config : EmailConfig) (m : PyStr)
    (env : FetchEnv) (st : AccountState) (rest : List (PyStr × FetchEnv))
    (h : env.fetch_raises = true ∨ env.fetch_ok = false ∨ env.parse_raises = true) :
    (processMessage config m env st).1 = st
      ∧ (processMessage config m env st).2.1 = false
      ∧ (runLoop config ((m, env) :: rest) st).1 = (runLoop config rest st).1
      ∧ (runLoop config ((m, env) :: rest) st).2.1 = (runLoop config rest st).2.1
      ∧ (m ∉ st.processed →
          (processMessage config m env st).2.2 = [NetOp.fetchOp m]) := by
  have hpm : (processMessage config m env st).1 = st
      ∧ (processMessage config m env st).2.1 = false := by
    unfold processMessage processMessageCore
    rcases h with h | h | h <;> split_ifs <;> simp_all
  refine ⟨hpm.1, hpm.2, ?_, ?_, ?_⟩
  · simp [runLoop, hpm.1, hpm.2]
  · simp [runLoop, hpm.1, hpm.2]
  · intro hmem
    unfold processMessage processMessageCore
    rcases h with h | h | h <;> split_ifs <;> simp_all

/-- Witness for the amended C6 at the concrete failing fetch: the state is
unchanged and the following message is processed exactly as without it. -/
theorem fetch_failure_local_not_added_witness :
    (processMessage cfg0 m0 envBadFetch initialAccountState).1 = initialAccountState
      ∧ (runLoop cfg0 [(m0, envBadFetch), (m0, envOk)] initialAccountState).2.1 =
          (runLoop cfg0 [(m0, envOk)] initialAccountState).2.1 :=
  ⟨(fetch_failure_local_not_added cfg0 m0 envBadFetch initialAccountState
      [(m0, envOk)] (Or.inr (Or.inl rfl))).1,
    (fetch_failure_local_not_added cfg0 m0 envBadFetch initialAccountState
      [(m0, envOk)] (Or.inr (Or.inl rfl))).2.2.2.1⟩

/-
  C3: passwords in the document written by _save_to_file.
-/

/-- A concrete config whose password is the empty string (falsy in
Python, so _save_to_file does not encrypt it). -/
def cfgEmptyPw : EmailConfig := { cfg0 with password := [] }

/-- A registry holding only cfgEmptyPw under owner 1, name [110]. -/
def regEmpty0 : Registry := [(1, [([110], cfgEmptyPw)])]

/-- Counterexample to C3: for a config whose password is the empty
string, the document written by _save_to_file contains that password
verbatim (the in-memory plaintext itself), which is not the encryption
of the plaintext — the guard `if config_dict.get('password'):` skips
falsy passwords. -/
theorem save_plaintext_password_counterexample :
    lookupReg regEmpty0 1 [110] = some cfgEmptyPw
      ∧ lookupReg (saveToFileDoc demoSuite regEmpty0) 1 [110] = some cfgEmptyPw
      ∧ cfgEmptyPw.password ≠ encrypt_password demoSuite cfgEmptyPw.password := by
  refine ⟨by decide, by decide, by decide⟩

/-- C3 amended: every NON-EMPTY password present in the document written
by _save_to_file is exactly _encrypt_password applied to the in-memory
plaintext; an empty password is written unchanged (as the empty string). -/
theorem saved_password_encrypted (S : CipherSuite) (reg : Registry)
    (u : Nat) (n : PyStr) (c : EmailConfig)
    (hc : lookupReg reg u n = some c) (hp : c.password ≠ []) :
    lookupReg (saveToFileDoc S reg) u n =
      some { c with password := encrypt_password S c.password } := by
  unfold lookupReg at hc ⊢
  cases hm : lookupA reg u with
  | none =>
    rw [hm] at hc
    exact Option.noConfusion hc
  | some m =>
    rw [hm] at hc
    have hc' : lookupA m n = some c := hc
    have h1 : lookupA (saveToFileDoc S reg) u =
        some (m.map (fun q => (q.1, encryptConfigForSave S q.2))) := by
      unfold saveToFileDoc
      rw [lookupA_map_value
        (fun mm => mm.map (fun q => (q.1, encryptConfigForSave S q.2))) reg u, hm]
      rfl
    have h2 : lookupA (m.map (fun q => (q.1, encryptConfigForSave S q.2))) n =
        some (encryptConfigForSave S c) := by
      rw [lookupA_map_value (encryptConfigForSave S) m n, hc']
      rfl
    rw [h1]
    show lookupA (m.map (fun q => (q.1, encryptConfigForSave S q.2))) n = _
    rw [h2]
    unfold encryptConfigForSave
    rw [if_pos hp]

/-- Witness for the amended C3 at a concrete one-entry registry. -/
theorem saved_password_encrypted_witness :
    lookupReg (saveToFileDoc demoSuite [(1, [([110], cfg0)])]) 1 [110] =
      some { cfg0 with password := encrypt_password demoSuite cfg0.password } :=
  saved_password_encrypted demoSuite [(1, [([110], cfg0)])] 1 [110] cfg0
    (by decide) (by decide)

/-
  C8: delete_user_config namespace invariant.
-/

/-- Counterexample to C8: with owner 5 present and no config named ""
(the empty string), delete_user_config(5, "") does not fail and leave the
registry unchanged: the empty name is falsy, so the source takes the
`if config_name:` else-branch, deletes ALL of the owner's configs and
returns success. -/
theorem delete_empty_name_counterexample :
    lookupA [(5, [([110], cfg0)])] 5 = some [([110], cfg0)]
      ∧ lookupA [([110], cfg0)] ([] : PyStr) = none
      ∧ delete_user_config [(5, [([110], cfg0)])] 5 (some []) = (true, [])
      ∧ delete_user_config [(5, [([110], cfg0)])] 5 (some []) ≠
          (false, [(5, [([110], cfg0)])]) := by
  refine ⟨by decide, by decide, by decide, by decide⟩

/-- C8 amended: deleting the only remaining named config of an owner
succeeds, removes the owner's registry entry entirely, and leaves the
owner's name list empty; deleting a missing owner fails and leaves the
registry unchanged; deleting a NON-EMPTY name the owner does not have
fails and leaves the registry unchanged; an empty name is falsy (like an
omitted name) and instead deletes all of the owner's configs, returning
success. -/
theorem delete_last_config_removes_owner :
    (∀ (reg : Registry) (u : Nat) (n : PyStr) (c : EmailConfig),
        lookupA reg u = some [(n, c)] →
          (delete_user_config reg u (some n)).1 = true
            ∧ lookupA (delete_user_config reg u (some n)).2 u = none
            ∧ list_user_config_names (delete_user_config reg u (some n)).2 u = [])
      ∧ (∀ (reg : Registry) (u : Nat) (n : Option PyStr),
          lookupA reg u = none → delete_user_config reg u n = (false, reg))
      ∧ (∀ (reg : Registry) (u : Nat) (n : PyStr) (m : List (PyStr × EmailConfig)),
          lookupA reg u = some m → n ≠ [] → lookupA m n = none →
            delete_user_config reg u (some n) = (false, reg))
      ∧ (∀ (reg : Registry) (u : Nat) (m : List (PyStr × EmailConfig)),
          lookupA reg u = some m →
            delete_user_config reg u (some []) = (true, eraseA reg u)
              ∧ delete_user_config reg u none = (true, eraseA reg u)) := by
  refine ⟨?_, ?_, ?_, ?_⟩
  · intro reg u n c h
    have hres : delete_user_config reg u (some n) = (true, eraseA reg u) := by
      by_cases hn : n = []
      · subst hn
        simp [delete_user_config, h, pyTruthyStr]
      · have ht : pyTruthyStr (some n) = true := by simp [pyTruthyStr, hn]
        have hin : lookupA [(n, c)] n = some c := by simp [lookupA]
        have herase : eraseA [(n, c)] n = ([] : List (PyStr × EmailConfig)) := by
          simp [eraseA]
        simp [delete_user_config, h, ht, hin, herase]
    rw [hres]
    refine ⟨rfl, lookupA_eraseA reg u, ?_⟩
    unfold list_user_config_names
    rw [lookupA_eraseA reg u]
  · intro reg u n h
    simp only [delete_user_config, h]
  · intro reg u n m hu hne hn
    have ht : pyTruthyStr (some n) = true := by simp [pyTruthyStr, hne]
    simp only [delete_user_config, hu, ht, if_pos, Option.getD_some, hn]
  · intro reg u m hu
    constructor
    · simp [delete_user_config, hu, pyTruthyStr]
    · simp [delete_user_config, hu, pyTruthyStr]

/-- Witness for the amended C8 at a concrete one-owner, one-config
registry: deletion of the only (non-empty) name, a missing owner, a
missing non-empty name, and the falsy empty name. -/
theorem delete_last_config_removes_owner_witness :
    lookupA (delete_user_config [(5, [([110], cfg0)])] 5 (some [110])).2 5 = none
      ∧ list_user_config_names
          (delete_user_config [(5, [([110], cfg0)])] 5 (some [110])).2 5 = []
      ∧ delete_user_config [(5, [([110], cfg0)])] 6 (some [110]) =
          (false, [(5, [([110], cfg0)])])
      ∧ delete_user_config [(5, [([110], cfg0)])] 5 (some [111]) =
          (false, [(5, [([110], cfg0)])])
      ∧ delete_user_config [(5, [([110], cfg0)])] 5 (some []) =
          (true, eraseA [(5, [([110], cfg0)])] 5) :=
  ⟨(delete_last_config_removes_owner.1 [(5, [([110], cfg0)])] 5 [110] cfg0
      (by decide)).2.1,
    (delete_last_config_removes_owner.1 [(5, [([110], cfg0)])] 5 [110] cfg0
      (by decide)).2.2,
    delete_last_config_removes_owner.2.1 [(5, [([110], cfg0)])] 6 (some [110])
      (by decide),
    delete_last_config_removes_owner.2.2.1 [(5, [([110], cfg0)])] 5 [111]
      [([110], cfg0)] (by decide) (by decide) (by decide),
    (delete_last_config_removes_owner.2.2.2 [(5, [([110], cfg0)])] 5
      [([110], cfg0)] (by decide)).1⟩

/-
  C10: EmailMonitor keys its transient per-account state by config.email.
-/

theorem processMessageCore_notified (config : EmailConfig) (m : PyStr)
    (env : FetchEnv) (procs : List PyStr)
    (h : (processMessageCore config m env procs).2.1 = true) :
    m ∈ (processMessageCore config m env procs).1 := by
  unfold processMessageCore at h ⊢
  split_ifs at h ⊢
  all_goals simp_all [mem_insertMsg]

theorem processMessageCore_skip (config : EmailConfig) (m : PyStr)
    (env : FetchEnv) (procs : List PyStr) (h : m ∈ procs) :
    processMessageCore config m env procs = (procs, false, []) := by
  unfold processMessageCore
  simp [h]

/-- The three per-account dictionaries EmailMonitor.__init__ builds, all
keyed by config.email: processed_messages, imap_clients, error_counts. -/
structure MonitorState where
  processedM : List (PyStr × List PyStr)
  clientsM : List (PyStr × Bool)
  errorsM : List (PyStr × Nat)
deriving DecidableEq

/-- EmailMonitor.__init__: one pass over the configs, assigning
processed_messages[config.email] = set(), imap_clients[config.email] =
None, error_counts[config.email] = 0 (a later config with the same email
overwrites the entry of an earlier one). -/
def initMonitor (configs : List EmailConfig) : MonitorState :=
  configs.foldl
    (fun ms c =>
      ⟨setA ms.processedM c.email [], setA ms.clientsM c.email false,
        setA ms.errorsM c.email 0⟩)
    ⟨[], [], []⟩

/-- _process_message at the monitor level: the dedup set is read from and
written back to processed_messages[config.email] (present for every
configured account after __init__; getD covers the otherwise-raising
KeyError case). -/
def processMessageM (config : EmailConfig) (m : PyStr) (env : FetchEnv)
    (ms : MonitorState) : MonitorState × Bool :=
  let procs := (lookupA ms.processedM config.email).getD []
  let r := processMessageCore config m env procs
  ({ ms with processedM := setA ms.processedM config.email r.1 }, r.2.1)

/-- C10: two configurations with the same email share all per-account
transient state: a monitor built from both holds a single entry in each
of the three dictionaries; every lookup of dedup set, client or error
counter agrees between the two configs; and a message notified under the
first config is suppressed (not notified again) under the second. -/
theorem transient_state_keyed_by_email (c1 c2 : EmailConfig)
    (h : c1.email = c2.email) :
    ((initMonitor [c1, c2]).processedM = [(c2.email, [])]
        ∧ (initMonitor [c1, c2]).clientsM = [(c2.email, false)]
        ∧ (initMonitor [c1, c2]).errorsM = [(c2.email, 0)])
      ∧ (∀ ms : MonitorState,
          lookupA ms.processedM c1.email = lookupA ms.processedM c2.email
            ∧ lookupA ms.clientsM c1.email = lookupA ms.clientsM c2.email
            ∧ lookupA ms.errorsM c1.email = lookupA ms.errorsM c2.email)
      ∧ (∀ (ms : MonitorState) (m : PyStr) (env1 env2 : FetchEnv),
          (processMessageM c1 m env1 ms).2 = true →
            (processMessageM c2 m env2 (processMessageM c1 m env1 ms).1).2 = false) := by
  refine ⟨?_, ?_, ?_⟩
  · simp [initMonitor, setA, h]
  · intro ms
    rw [h]
    exact ⟨rfl, rfl, rfl⟩
  · intro ms m env1 env2 hn
    have hmem : m ∈ (processMessageCore c1 m env1
        ((lookupA ms.processedM c1.email).getD [])).1 :=
      processMessageCore_notified c1 m env1
        ((lookupA ms.processedM c1.email).getD []) hn
    have hlook : lookupA (processMessageM c1 m env1 ms).1.processedM c2.email =
        some (processMessageCore c1 m env1
          ((lookupA ms.processedM c1.email).getD [])).1 := by
      show lookupA (setA ms.processedM c1.email _) c2.email = _
      rw [← h]
      exact lookupA_setA_self _ _ _
    show (processMessageCore c2 m env2
        ((lookupA (processMessageM c1 m env1 ms).1.processedM c2.email).getD [])).2.1
      = false
    rw [hlook]
    show (processMessageCore c2 m env2 (processMessageCore c1 m env1
        ((lookupA ms.processedM c1.email).getD [])).1).2.1 = false
    rw [processMessageCore_skip c2 m env2 _ hmem]

/-- An alternate concrete configuration with the same email as cfg0 but a
different folder and name. -/
def cfg0alt : EmailConfig := { cfg0 with folder := [74], config_name := [99] }

/-- Witness for C10 at cfg0 and cfg0alt (same mailbox, different folder):
one shared dictionary entry, and a message notified under cfg0 is
suppressed under cfg0alt. -/
theorem transient_state_keyed_by_email_witness :
    (initMonitor [cfg0, cfg0alt]).processedM = [(cfg0alt.email, [])]
      ∧ (processMessageM cfg0alt m0 envOk
          (processMessageM cfg0 m0 envOk (initMonitor [cfg0, cfg0alt])).1).2 = false :=
  ⟨(transient_state_keyed_by_email cfg0 cfg0alt rfl).1.1,
    (transient_state_keyed_by_email cfg0 cfg0alt rfl).2.2
      (initMonitor [cfg0, cfg0alt]) m0 envOk envOk (by decide)⟩

/-- Witness for C9: with only the attachment filter set to false, a
message without attachments passes, via the characterization. -/
theorem should_process_email_iff_witness :
    should_process_email info0
      { cfg0 with filter_has_attachments := some false } = true :=
  (should_process_email_iff info0
      { cfg0 with filter_has_attachments := some false }).mpr
    ⟨fun f hf => Option.noConfusion (show (none : Option PyStr) = some f from hf),
      fun f hf => Option.noConfusion (show (none : Option PyStr) = some f from hf),
      fun b hb => by
        have hb' : (some false : Option Bool) = some b := hb
        cases hb'
        rfl⟩
